import Mathlib

/-!
Verification of the emf22-badge 3D software renderer.

The repository has two versions of the renderer app:
the current one under app/ (five render modes, per-frame depth sort,
array-based projected-vertex cache) and an older top-level one
(four render modes, dict-based cache).  The rendering pipeline of the
current app is embedded here from the body of Renderer.render_scene,
with the vector and matrix primitives of the native tidal3d library
(not part of this repository snapshot) modelled from the spec.

Numeric convention: Python floats are modelled as rationals; Python
int() truncation toward zero is modelled by truncQ.
-/

/-- A 3D vector of rationals, the value type used for positions,
normals, the lighting direction and the camera position. -/
structure Vec3 where
  x : ℚ
  y : ℚ
  z : ℚ
deriving DecidableEq, Repr

/-- The zero vector, used as the out-of-range fallback for list reads
(a fatal error in the real program, which trusts mesh indices). -/
def vzero : Vec3 := ⟨0, 0, 0⟩

/-- Modelled from the spec: tidal3d v_subtract, componentwise vector
subtraction. -/
def v_subtract (a b : Vec3) : Vec3 :=
  ⟨a.x - b.x, a.y - b.y, a.z - b.z⟩

/-- Modelled from the spec: tidal3d v_dot, the scalar dot product. -/
def v_dot (a b : Vec3) : ℚ :=
  a.x * b.x + a.y * b.y + a.z * b.z

/-- Modelled from the spec: tidal3d v_scale, componentwise scaling of a
vector by a scalar. -/
def v_scale (v : Vec3) (s : ℚ) : Vec3 :=
  ⟨v.x * s, v.y * s, v.z * s⟩

/-- Modelled from the spec: tidal3d v_average applied to the three
vertices of a face, the centroid (average) of three points. -/
def v_average3 (a b c : Vec3) : Vec3 :=
  ⟨(a.x + b.x + c.x) / 3, (a.y + b.y + c.y) / 3, (a.z + b.z + c.z) / 3⟩

/-- A 4x4 matrix stored as a flat list of 16 rationals, exactly as the
source builds it.  Reads use mat_get below with the column-major
convention fixed by the spec (the -1 entry of the projection matrix
sits at row 3, column 2, which is flat index 11). -/
def Mat4 : Type := List ℚ

/-- Read entry (row r, column c) of a flat column-major 4x4 matrix. -/
def mat_get (m : Mat4) (r c : ℕ) : ℚ :=
  m.getD (c * 4 + r) 0

/-- Modelled from the spec: tidal3d v_multiply, the homogeneous
matrix-vector product with perspective divide.  The vector is extended
with w = 1, multiplied as a column vector by the column-major matrix,
and the result is divided by its w component.  The spec leaves w = 0
undefined; the rational convention division-by-zero-is-zero applies
there. -/
def v_multiply (v : Vec3) (m : Mat4) : Vec3 :=
  let xh := mat_get m 0 0 * v.x + mat_get m 0 1 * v.y + mat_get m 0 2 * v.z + mat_get m 0 3
  let yh := mat_get m 1 0 * v.x + mat_get m 1 1 * v.y + mat_get m 1 2 * v.z + mat_get m 1 3
  let zh := mat_get m 2 0 * v.x + mat_get m 2 1 * v.y + mat_get m 2 2 * v.z + mat_get m 2 3
  let wh := mat_get m 3 0 * v.x + mat_get m 3 1 * v.y + mat_get m 3 2 * v.z + mat_get m 3 3
  ⟨xh / wh, yh / wh, zh / wh⟩

/-- Renderer.perspective_matrix from app, with the external
math.tan(radians(fov * 0.5)) call abstracted as the parameter
tan_half_fov (the source local variable named scale).  The body writes
the same flat indices as the source: 0, 5, 10, 14, 11, 15; all other
entries are zero from the initial list of sixteen zeros. -/
def perspective_matrix (tan_half_fov aspect near far : ℚ) : Mat4 :=
  [1 / (tan_half_fov * aspect), 0, 0, 0,
   0, 1 / tan_half_fov, 0, 0,
   0, 0, -far / (far - near), -1,
   0, 0, -far * near / (far - near), 0]

/-- Python int() truncation toward zero on a rational. -/
def truncQ (q : ℚ) : ℤ :=
  if 0 ≤ q then ⌊q⌋ else ⌈q⌉

/-- Renderer.ndc_to_screen from the top-level renderer; the app version
performs the identical formula natively (per the source comment and the
spec): x = (ndc.x + 1) * 0.5 * width, y = (1 - (ndc.y + 1) * 0.5) *
height, both truncated to integers. -/
def ndc_to_screen (width height : ℚ) (ndc : Vec3) : ℤ × ℤ :=
  let x := (ndc.x + 1) * 0.5 * width
  let y := (1 - (ndc.y + 1) * 0.5) * height
  (truncQ x, truncQ y)

/-- Render mode constant MODE_POINT_CLOUD of the app renderer. -/
def MODE_POINT_CLOUD : ℤ := 0

/-- Render mode constant MODE_WIREFRAME_FULL of the app renderer. -/
def MODE_WIREFRAME_FULL : ℤ := 1

/-- Render mode constant MODE_WIREFRAME_BACK_FACE_CULLING. -/
def MODE_WIREFRAME_BACK_FACE_CULLING : ℤ := 2

/-- Render mode constant MODE_SOLID of the app renderer. -/
def MODE_SOLID : ℤ := 3

/-- Render mode constant MODE_SOLID_SHADED of the app renderer. -/
def MODE_SOLID_SHADED : ℤ := 4

/-- Renderer.select_mode of the app renderer: increment the mode, wrap
to zero past MODE_SOLID_SHADED. -/
def select_mode (m : ℤ) : ℤ :=
  if m + 1 > MODE_SOLID_SHADED then 0 else m + 1

/-- Renderer.select_mode of the older top-level renderer: an explicit
four-state cycle through modes 0, 1, 2, 3. -/
def select_mode_v1 (m : ℤ) : ℤ :=
  if m = 0 then 1
  else if m = 1 then 2
  else if m = 2 then 3
  else if m = 3 then 0
  else m

/-- Initial render mode of the app renderer. -/
def initial_render_mode : ℤ := MODE_SOLID_SHADED

/-- A mesh face: three vertex indices, a normal index and a colour
index, as iterated by the render loop of the app renderer. -/
structure Face where
  i0 : ℕ
  i1 : ℕ
  i2 : ℕ
  ni : ℕ
  ci : ℕ
deriving DecidableEq, Repr

/-- The per-frame inputs of Renderer.render_scene after the world
transform: the world-space vertex and normal arrays, the mesh topology
and palette, the camera position, lighting vector, view and projection
matrices, the active render mode and the framebuffer dimensions.  The
field nrm is modelled from the spec: it stands for the native tidal3d
v_normalise (not part of this snapshot), which returns the unit-length
direction of a nonzero vector, that is, a positive rescaling of its
argument; the culling theorems hold for every choice of nrm. -/
structure RenderCtx where
  verts : List Vec3
  norms : List Vec3
  faces : List Face
  colours : List (ℤ × ℤ × ℤ)
  campos : Vec3
  v_light : Vec3
  m_view : Mat4
  m_proj : Mat4
  mode : ℤ
  width : ℚ
  height : ℚ
  nrm : Vec3 → Vec3

/-- World-space position of vertex i (mesh indices are trusted; out of
range reads fall back to the zero vector). -/
def vert_at (R : RenderCtx) (i : ℕ) : Vec3 := R.verts.getD i vzero

/-- World-space normal with index i. -/
def norm_at (R : RenderCtx) (i : ℕ) : Vec3 := R.norms.getD i vzero

/-- The centre local of the render loop: centroid of the three
world-space vertices of the face. -/
def face_centre (R : RenderCtx) (f : Face) : Vec3 :=
  v_average3 (vert_at R f.i0) (vert_at R f.i1) (vert_at R f.i2)

/-- The camera local of the render loop: normalised direction from the
face centroid to the camera position, v_normalise(campos - centre). -/
def face_camera (R : RenderCtx) (f : Face) : Vec3 :=
  R.nrm (v_subtract R.campos (face_centre R f))

/-- The dot local of the culling test: dot product of the face normal
with the centroid-to-camera direction. -/
def face_dot (R : RenderCtx) (f : Face) : ℚ :=
  v_dot (norm_at R f.ni) (face_camera R f)

/-- A render mode requests back-face culling when it is at least
MODE_WIREFRAME_BACK_FACE_CULLING. -/
def culling_enabled (mode : ℤ) : Bool :=
  decide (MODE_WIREFRAME_BACK_FACE_CULLING ≤ mode)

/-- The continue condition of the culling loop, negated: a face is kept
unless its dot is negative while the active mode culls back faces. -/
def face_keep (R : RenderCtx) (f : Face) : Bool :=
  !(decide (face_dot R f < 0) && culling_enabled R.mode)

/-- Projection of world vertex i: view transform then projection
transform, each a homogeneous multiply with perspective divide. -/
def project_vert (R : RenderCtx) (i : ℕ) : Vec3 :=
  v_multiply (v_multiply (vert_at R i) R.m_view) R.m_proj

/-- Face depth: z component of the face centroid transformed by the
view matrix. -/
def face_depth (R : RenderCtx) (f : Face) : ℚ :=
  (v_multiply (face_centre R f) R.m_view).z

/-- The projected-vertex cache: one optional NDC value per vertex,
initialised to all none, as the source list [None] * len(verts). -/
abbrev Cache := List (Option Vec3)

/-- Project vertex i into the cache unless it is already present. -/
def cache_add (R : RenderCtx) (c : Cache) (i : ℕ) : Cache :=
  if (c.getD i none).isSome then c else c.set i (some (project_vert R i))

/-- One iteration of the culling and projection loop: a kept face
projects its three vertices into the cache and is appended to the face
list together with its depth; a culled face leaves the state alone. -/
def cull_step (R : RenderCtx) (st : List (Face × ℚ) × Cache) (f : Face) :
    List (Face × ℚ) × Cache :=
  if face_keep R f then
    (st.1 ++ [(f, face_depth R f)],
     cache_add R (cache_add R (cache_add R st.2 f.i0) f.i1) f.i2)
  else st

/-- The full culling and projection loop over the mesh faces. -/
def cull_pass (R : RenderCtx) : List (Face × ℚ) × Cache :=
  R.faces.foldl (cull_step R) ([], List.replicate R.verts.length none)

/-- The sort key relation of the painter-algorithm sort: ascending
face depth. -/
def depth_le (a b : Face × ℚ) : Prop := a.2 ≤ b.2

instance : DecidableRel depth_le := fun a b => inferInstanceAs (Decidable (a.2 ≤ b.2))

instance : IsTotal (Face × ℚ) depth_le := ⟨fun a b => le_total a.2 b.2⟩

instance : IsTrans (Face × ℚ) depth_le := ⟨fun _ _ _ h h2 => le_trans h h2⟩

/-- The faces.sort call of the render loop: a stable sort by ascending
depth (Python list.sort is stable; a stable sort is modelled by
insertion sort, which is also stable). -/
def sort_faces (fs : List (Face × ℚ)) : List (Face × ℚ) :=
  List.insertionSort depth_le fs

/-- A draw primitive submitted to the framebuffer sink, with colours of
an abstract type C (the packed colour encoding is external). -/
inductive DrawCall (C : Type) where
  | points (coords : List (ℤ × ℤ)) (colour : C)
  | outline (coords : List (ℤ × ℤ)) (colour : C)
  | fill (coords : List (ℤ × ℤ)) (colour : C)
deriving DecidableEq, Repr

/-- Read a projected vertex from the cache (defaulting an absent entry
to the zero vector; the real program would raise there). -/
def cache_ndc (c : Cache) (i : ℕ) : Vec3 := (c.getD i none).getD vzero

/-- The face_verts list of the render loop: the cached NDC values of
the three vertices of a face. -/
def face_ndc (c : Cache) (f : Face) : List Vec3 :=
  [cache_ndc c f.i0, cache_ndc c f.i1, cache_ndc c f.i2]

/-- The per-vertex viewport test of the render loop: both coordinates
strictly between -1 and 1. -/
def vert_visible (v : Vec3) : Bool :=
  decide (v.x > -1) && decide (v.x < 1) && decide (v.y > -1) && decide (v.y < 1)

/-- A face passes the viewport test when at least one of its projected
vertices passes the per-vertex test. -/
def face_visible (vs : List Vec3) : Bool := vs.any vert_visible

/-- The colour resolution of the render loop: WHITE by default, the
flat palette colour for the wireframe and solid modes, and for the
shaded mode the palette colour scaled by minus the dot of the face
normal with the lighting vector, each channel truncated to an integer
and clamped below at 8, then packed by the external colour encoder. -/
def face_colour {C : Type} (R : RenderCtx) (pack : ℤ → ℤ → ℤ → C) (white : C)
    (f : Face) : C :=
  let rgb := R.colours.getD f.ci (0, 0, 0)
  if MODE_POINT_CLOUD < R.mode ∧ R.mode < MODE_SOLID_SHADED then
    pack rgb.1 rgb.2.1 rgb.2.2
  else if MODE_SOLID_SHADED ≤ R.mode then
    let d := v_dot (norm_at R f.ni) R.v_light
    let s := v_scale ⟨(rgb.1 : ℚ), (rgb.2.1 : ℚ), (rgb.2.2 : ℚ)⟩ (-d)
    pack (max (truncQ s.x) 8) (max (truncQ s.y) 8) (max (truncQ s.z) 8)
  else white

/-- The body of the render loop for one sorted face: skip it when no
projected vertex passes the viewport test, otherwise convert its NDC
values to screen coordinates and emit the draw primitive selected by
the active render mode. -/
def draw_face {C : Type} (R : RenderCtx) (pack : ℤ → ℤ → ℤ → C) (white : C)
    (c : Cache) (fd : Face × ℚ) : Option (DrawCall C) :=
  let vs := face_ndc c fd.1
  if face_visible vs then
    let coords := vs.map (ndc_to_screen R.width R.height)
    let colour := face_colour R pack white fd.1
    if R.mode = MODE_POINT_CLOUD then some (.points coords colour)
    else if R.mode = MODE_WIREFRAME_FULL ∨ R.mode = MODE_WIREFRAME_BACK_FACE_CULLING then
      some (.outline coords colour)
    else if MODE_SOLID ≤ R.mode then some (.fill coords colour)
    else none
  else none

/-- Renderer.render_scene of the app renderer, from the culling loop
on: cull and project, depth-sort the surviving faces, and emit the draw
calls of the visible ones in sorted order. -/
def render_scene {C : Type} (R : RenderCtx) (pack : ℤ → ℤ → ℤ → C) (white : C) :
    List (DrawCall C) :=
  let fc := cull_pass R
  (sort_faces fc.1).filterMap (draw_face R pack white fc.2)

/-- Projected vertices of a face recomputed directly, without the
per-frame cache; the reference side of the memoization claim, written
from the words of the spec. -/
def face_ndc_direct (R : RenderCtx) (f : Face) : List Vec3 :=
  [project_vert R f.i0, project_vert R f.i1, project_vert R f.i2]

/-- The render loop body with every projected vertex recomputed instead
of read from the cache. -/
def draw_face_direct {C : Type} (R : RenderCtx) (pack : ℤ → ℤ → ℤ → C) (white : C)
    (fd : Face × ℚ) : Option (DrawCall C) :=
  let vs := face_ndc_direct R fd.1
  if face_visible vs then
    let coords := vs.map (ndc_to_screen R.width R.height)
    let colour := face_colour R pack white fd.1
    if R.mode = MODE_POINT_CLOUD then some (.points coords colour)
    else if R.mode = MODE_WIREFRAME_FULL ∨ R.mode = MODE_WIREFRAME_BACK_FACE_CULLING then
      some (.outline coords colour)
    else if MODE_SOLID ≤ R.mode then some (.fill coords colour)
    else none
  else none

/-- The cache-free pipeline: filter the faces by the culling test, pair
each with its depth, sort, and draw with directly recomputed projected
vertices. -/
def render_scene_direct {C : Type} (R : RenderCtx) (pack : ℤ → ℤ → ℤ → C)
    (white : C) : List (DrawCall C) :=
  (sort_faces ((R.faces.filter (face_keep R)).map (fun f => (f, face_depth R f)))).filterMap
    (draw_face_direct R pack white)

/-- Mesh indices in range: the load-time precondition the renderer
trusts per the spec. -/
def valid_mesh (R : RenderCtx) : Prop :=
  ∀ f ∈ R.faces,
    f.i0 < R.verts.length ∧ f.i1 < R.verts.length ∧ f.i2 < R.verts.length

/-- Renderer.identity_matrix: the 4x4 identity as a flat list. -/
def identity_matrix : Mat4 :=
  [1, 0, 0, 0, 0, 1, 0, 0, 0, 0, 1, 0, 0, 0, 0, 1]

/-- The mutable simulation state touched by the input callbacks and the
per-frame update of the app renderer: the mesh angular velocity and
orientation (Euler angles, degrees) per axis, and the held state of the
four directional controls. -/
structure SimState where
  ang_x : ℚ
  ang_y : ℚ
  ang_z : ℚ
  ori_x : ℚ
  ori_y : ℚ
  ori_z : ℚ
  joy_left : Bool
  joy_right : Bool
  joy_up : Bool
  joy_down : Bool
deriving DecidableEq, Repr

/-- Renderer.button_left of the app renderer: set the angular Y
velocity to 45 degrees per second. -/
def button_left (s : SimState) : SimState := { s with ang_y := 45 }

/-- Renderer.button_right of the app renderer. -/
def button_right (s : SimState) : SimState := { s with ang_y := -45 }

/-- Renderer.button_up of the app renderer. -/
def button_up (s : SimState) : SimState := { s with ang_x := 45 }

/-- Renderer.button_down of the app renderer. -/
def button_down (s : SimState) : SimState := { s with ang_x := -45 }

/-- Modelled from the spec: Mesh.update of object.py (not part of this
snapshot) integrates orientation by angular velocity times elapsed
time, per axis, unconditionally, and touches nothing else. -/
def mesh_update (dt : ℚ) (s : SimState) : SimState :=
  { s with
    ori_x := s.ori_x + s.ang_x * dt,
    ori_y := s.ori_y + s.ang_y * dt,
    ori_z := s.ori_z + s.ang_z * dt }

/-- Renderer.update of the app renderer: zero the angular Y velocity
when neither horizontal control is held, zero the angular X velocity
when neither vertical control is held, then advance the mesh. -/
def renderer_update (dt : ℚ) (s : SimState) : SimState :=
  let s1 := if !s.joy_left && !s.joy_right then { s with ang_y := 0 } else s
  let s2 := if !s1.joy_up && !s1.joy_down then { s1 with ang_x := 0 } else s1
  mesh_update dt s2

/-- A concrete colour packer for witnesses: keep the channels as a
triple. -/
def packT (r g b : ℤ) : ℤ × ℤ × ℤ := (r, g, b)

/-- A concrete WHITE stand-in for witnesses. -/
def whiteT : ℤ × ℤ × ℤ := (255, 255, 255)

/-- Concrete context for the culling counterexample: one front-facing
face (normal toward the camera), culling mode active, identity view
and projection, and the identity as the concrete normalise function. -/
def R_cx1 : RenderCtx :=
  { verts := [⟨0, 0, 0⟩]
    norms := [⟨0, 0, 1⟩]
    faces := [⟨0, 0, 0, 0, 0⟩]
    colours := [(255, 0, 0)]
    campos := ⟨0, 0, 35⟩
    v_light := ⟨-1, -1, -1⟩
    m_view := identity_matrix
    m_proj := identity_matrix
    mode := MODE_WIREFRAME_BACK_FACE_CULLING
    width := 160
    height := 128
    nrm := fun v => v }

/-- Concrete context for the culling witness: one kept face (normal 0
toward the camera) and one culled face (normal 1 away from it), with
back-face culling active. -/
def R_w1 : RenderCtx :=
  { verts := [⟨0, 0, 0⟩]
    norms := [⟨0, 0, 1⟩, ⟨0, 0, -1⟩]
    faces := [⟨0, 0, 0, 0, 0⟩, ⟨0, 0, 0, 1, 0⟩]
    colours := [(255, 0, 0)]
    campos := ⟨0, 0, 35⟩
    v_light := ⟨-1, -1, -1⟩
    m_view := identity_matrix
    m_proj := identity_matrix
    mode := MODE_WIREFRAME_BACK_FACE_CULLING
    width := 160
    height := 128
    nrm := fun v => v }

/-- Concrete context for the viewport counterexample: a single face
whose projected vertices all sit exactly on the boundary point (1, 0)
of the closed unit square, in point-cloud mode (no culling). -/
def R_cx3 : RenderCtx :=
  { verts := [⟨1, 0, 0⟩]
    norms := [⟨0, 0, 1⟩]
    faces := [⟨0, 0, 0, 0, 0⟩]
    colours := [(255, 0, 0)]
    campos := ⟨0, 0, 35⟩
    v_light := ⟨-1, -1, -1⟩
    m_view := identity_matrix
    m_proj := identity_matrix
    mode := MODE_POINT_CLOUD
    width := 160
    height := 128
    nrm := fun v => v }

/-- Concrete context for the viewport witness, with one projected
vertex at the origin of NDC space. -/
def R_w3 : RenderCtx :=
  { verts := [⟨0, 0, 0⟩, ⟨5, 5, 0⟩]
    norms := [⟨0, 0, 1⟩]
    faces := [⟨0, 1, 1, 0, 0⟩]
    colours := [(255, 0, 0)]
    campos := ⟨0, 0, 35⟩
    v_light := ⟨-1, -1, -1⟩
    m_view := identity_matrix
    m_proj := identity_matrix
    mode := MODE_POINT_CLOUD
    width := 160
    height := 128
    nrm := fun v => v }

/-- Concrete context for the shaded-colour witness: solid shaded mode,
face normal opposite to the lighting vector for full intensity. -/
def R_w6 : RenderCtx :=
  { verts := [⟨0, 0, 0⟩]
    norms := [⟨0, 0, 1⟩]
    faces := [⟨0, 0, 0, 0, 0⟩]
    colours := [(200, 100, 50)]
    campos := ⟨0, 0, 35⟩
    v_light := ⟨0, 0, -1⟩
    m_view := identity_matrix
    m_proj := identity_matrix
    mode := MODE_SOLID_SHADED
    width := 160
    height := 128
    nrm := fun v => v }

/-- Concrete context for the memoization witness: two faces sharing two
vertices so that the cache is actually consulted. -/
def R_w7 : RenderCtx :=
  { verts := [⟨0, 0, 0⟩, ⟨1/2, 0, 0⟩, ⟨0, 1/2, 0⟩, ⟨1/2, 1/2, 0⟩]
    norms := [⟨0, 0, 1⟩]
    faces := [⟨0, 1, 2, 0, 0⟩, ⟨1, 2, 3, 0, 0⟩]
    colours := [(255, 0, 0)]
    campos := ⟨0, 0, 35⟩
    v_light := ⟨-1, -1, -1⟩
    m_view := identity_matrix
    m_proj := identity_matrix
    mode := MODE_POINT_CLOUD
    width := 160
    height := 128
    nrm := fun v => v }

/-- Cache correctness: every entry present in the projected-vertex
cache is the projection of its vertex through the view and projection
matrices. -/
def cache_ok (R : RenderCtx) (c : Cache) : Prop :=
  ∀ i v, c.getD i none = some v → v = project_vert R i

/-- A face is covered by a cache when all three of its vertex indices
have entries. -/
def covered (c : Cache) (f : Face) : Prop :=
  ((c.getD f.i0 none).isSome = true) ∧ ((c.getD f.i1 none).isSome = true) ∧
    ((c.getD f.i2 none).isSome = true)

theorem getD_replicate_none (n i : ℕ) :
    (List.replicate n (none : Option Vec3)).getD i none = none := by
  rw [List.getD_eq_getElem?_getD, List.getElem?_replicate]
  split <;> rfl

theorem cache_add_isSome {R : RenderCtx} {c : Cache} {j i : ℕ}
    (h : ((cache_add R c j).getD i none).isSome = true) :
    ((c.getD i none).isSome = true) ∨ i = j := by
  unfold cache_add at h
  split at h
  · exact Or.inl h
  · by_cases hij : i = j
    · exact Or.inr hij
    · rw [List.getD_eq_getElem?_getD, List.getElem?_set_ne (fun hh => hij hh.symm)] at h
      exact Or.inl (by rw [List.getD_eq_getElem?_getD]; exact h)

theorem cache_add_mono {R : RenderCtx} {c : Cache} {i : ℕ} (j : ℕ)
    (h : (c.getD i none).isSome = true) :
    ((cache_add R c j).getD i none).isSome = true := by
  unfold cache_add
  split
  · exact h
  · rename_i hnot
    by_cases hij : i = j
    · subst hij; exact absurd h hnot
    · rw [List.getD_eq_getElem?_getD, List.getElem?_set_ne (fun hh => hij hh.symm),
        ← List.getD_eq_getElem?_getD]
      exact h

theorem cache_add_covers {R : RenderCtx} {c : Cache} {j : ℕ} (h : j < c.length) :
    ((cache_add R c j).getD j none).isSome = true := by
  unfold cache_add
  split
  · assumption
  · rw [List.getD_eq_getElem?_getD, List.getElem?_set_eq_of_lt _ h]
    rfl

theorem cache_add_length (R : RenderCtx) (c : Cache) (j : ℕ) :
    (cache_add R c j).length = c.length := by
  unfold cache_add
  split
  · rfl
  · exact List.length_set c j _

theorem cache_ok_add {R : RenderCtx} {c : Cache} (h : cache_ok R c) (j : ℕ) :
    cache_ok R (cache_add R c j) := by
  intro i v hv
  unfold cache_add at hv
  split at hv
  · exact h i v hv
  · by_cases hij : i = j
    · subst hij
      rw [List.getD_eq_getElem?_getD] at hv
      rcases Nat.lt_or_ge i c.length with hlt | hge
      · rw [List.getElem?_set_eq_of_lt _ hlt] at hv
        simp only [Option.getD_some] at hv
        exact (Option.some.inj hv).symm
      · rw [List.getElem?_eq_none (by rw [List.length_set]; omega)] at hv
        cases hv
    · rw [List.getD_eq_getElem?_getD, List.getElem?_set_ne (fun hh => hij hh.symm),
        ← List.getD_eq_getElem?_getD] at hv
      exact h i v hv

theorem cache_ok_init (R : RenderCtx) :
    cache_ok R (List.replicate R.verts.length none) := by
  intro i v hv
  rw [getD_replicate_none] at hv
  cases hv

theorem cull_fold_fst (R : RenderCtx) :
    ∀ (fs : List Face) (st : List (Face × ℚ) × Cache),
      (fs.foldl (cull_step R) st).1 =
        st.1 ++ (fs.filter (face_keep R)).map (fun f => (f, face_depth R f))
  | [], st => by simp
  | f :: fs, st => by
    rw [List.foldl_cons, cull_fold_fst R fs]
    unfold cull_step
    by_cases hk : face_keep R f = true
    · simp [hk]
    · simp [hk]

theorem cull_fold_cache_ok (R : RenderCtx) :
    ∀ (fs : List Face) (st : List (Face × ℚ) × Cache),
      cache_ok R st.2 → cache_ok R (fs.foldl (cull_step R) st).2
  | [], _, h => h
  | f :: fs, st, h => by
    rw [List.foldl_cons]
    apply cull_fold_cache_ok R fs
    unfold cull_step
    split
    · exact cache_ok_add (cache_ok_add (cache_ok_add h _) _) _
    · exact h

theorem cull_fold_cache_isSome (R : RenderCtx) :
    ∀ (fs : List Face) (st : List (Face × ℚ) × Cache) (i : ℕ),
      ((fs.foldl (cull_step R) st).2.getD i none).isSome = true →
      ((st.2.getD i none).isSome = true) ∨
        ∃ f, f ∈ fs ∧ face_keep R f = true ∧ (i = f.i0 ∨ i = f.i1 ∨ i = f.i2)
  | [], _, _, h => Or.inl h
  | f :: fs, st, i, h => by
    rw [List.foldl_cons] at h
    rcases cull_fold_cache_isSome R fs (cull_step R st f) i h with h2 | ⟨g, hg, hkg, hig⟩
    · unfold cull_step at h2
      by_cases hk : face_keep R f = true
      · simp only [hk, if_true] at h2
        rcases cache_add_isSome h2 with h3 | h3
        · rcases cache_add_isSome h3 with h4 | h4
          · rcases cache_add_isSome h4 with h5 | h5
            · exact Or.inl h5
            · exact Or.inr ⟨f, List.mem_cons_self f fs, hk, Or.inl h5⟩
          · exact Or.inr ⟨f, List.mem_cons_self f fs, hk, Or.inr (Or.inl h4)⟩
        · exact Or.inr ⟨f, List.mem_cons_self f fs, hk, Or.inr (Or.inr h3)⟩
      · simp only [hk, if_false, Bool.false_eq_true] at h2
        simp [hk] at h2
        exact Or.inl (by rw [List.getD_eq_getElem?_getD]; exact h2)
    · exact Or.inr ⟨g, List.mem_cons_of_mem f hg, hkg, hig⟩

theorem cull_fold_covered (R : RenderCtx) :
    ∀ (fs : List Face) (st : List (Face × ℚ) × Cache),
      (∀ f ∈ fs, f.i0 < st.2.length ∧ f.i1 < st.2.length ∧ f.i2 < st.2.length) →
      (∀ fd ∈ st.1, covered st.2 fd.1) →
      ∀ fd ∈ (fs.foldl (cull_step R) st).1, covered (fs.foldl (cull_step R) st).2 fd.1
  | [], _, _, hcov => hcov
  | f :: fs, st, hval, hcov => by
    rw [List.foldl_cons]
    have hlen : (cull_step R st f).2.length = st.2.length := by
      unfold cull_step
      split
      · simp [cache_add_length]
      · rfl
    apply cull_fold_covered R fs
    · intro g hg
      rw [hlen]
      exact hval g (List.mem_cons_of_mem f hg)
    · intro fd hfd
      unfold cull_step at hfd ⊢
      by_cases hk : face_keep R f = true
      · simp only [hk, if_true] at hfd ⊢
        rcases List.mem_append.mp hfd with hin | hnew
        · rcases hcov fd hin with ⟨h0, h1, h2⟩
          exact ⟨cache_add_mono _ (cache_add_mono _ (cache_add_mono _ h0)),
                 cache_add_mono _ (cache_add_mono _ (cache_add_mono _ h1)),
                 cache_add_mono _ (cache_add_mono _ (cache_add_mono _ h2))⟩
        · have hfd2 : fd = (f, face_depth R f) := by simpa using hnew
          subst hfd2
          have hv := hval f (List.mem_cons_self f fs)
          refine ⟨?_, ?_, ?_⟩
          · exact cache_add_mono _ (cache_add_mono _ (cache_add_covers hv.1))
          · exact cache_add_mono _
              (cache_add_covers (by rw [cache_add_length]; exact hv.2.1))
          · exact cache_add_covers
              (by rw [cache_add_length, cache_add_length]; exact hv.2.2)
      · simp only [hk, if_false, Bool.false_eq_true] at hfd ⊢
        exact hcov fd hfd

theorem cull_pass_fst (R : RenderCtx) :
    (cull_pass R).1 = (R.faces.filter (face_keep R)).map (fun f => (f, face_depth R f)) := by
  unfold cull_pass
  rw [cull_fold_fst]
  rfl

theorem cull_pass_cache_ok (R : RenderCtx) : cache_ok R (cull_pass R).2 :=
  cull_fold_cache_ok R R.faces _ (cache_ok_init R)

theorem cull_pass_covered (R : RenderCtx) (hv : valid_mesh R) :
    ∀ fd ∈ (cull_pass R).1, covered (cull_pass R).2 fd.1 := by
  apply cull_fold_covered
  · intro f hf
    simpa using hv f hf
  · intro fd hfd
    exact absurd hfd (List.not_mem_nil fd)

theorem face_ndc_eq_direct (R : RenderCtx) {c : Cache} (hok : cache_ok R c) {f : Face}
    (hcov : covered c f) : face_ndc c f = face_ndc_direct R f := by
  rcases hcov with ⟨h0, h1, h2⟩
  rcases Option.isSome_iff_exists.mp h0 with ⟨v0, hv0⟩
  rcases Option.isSome_iff_exists.mp h1 with ⟨v1, hv1⟩
  rcases Option.isSome_iff_exists.mp h2 with ⟨v2, hv2⟩
  unfold face_ndc face_ndc_direct cache_ndc
  rw [hv0, hv1, hv2]
  simp [← hok _ _ hv0, ← hok _ _ hv1, ← hok _ _ hv2]

theorem draw_face_eq_direct {C : Type} (R : RenderCtx) (pack : ℤ → ℤ → ℤ → C)
    (white : C) {c : Cache} (hok : cache_ok R c) {fd : Face × ℚ}
    (hcov : covered c fd.1) :
    draw_face R pack white c fd = draw_face_direct R pack white fd := by
  unfold draw_face draw_face_direct
  rw [face_ndc_eq_direct R hok hcov]

/-- C8: starting from point-cloud mode, five successive invocations of
select_mode of the app renderer (which has five render modes) return
the render mode to point cloud, and no fewer do; likewise four
invocations of select_mode of the older four-mode renderer, and no
fewer. -/
theorem select_mode_wraparound :
    select_mode^[5] MODE_POINT_CLOUD = MODE_POINT_CLOUD ∧
    select_mode^[1] MODE_POINT_CLOUD ≠ MODE_POINT_CLOUD ∧
    select_mode^[2] MODE_POINT_CLOUD ≠ MODE_POINT_CLOUD ∧
    select_mode^[3] MODE_POINT_CLOUD ≠ MODE_POINT_CLOUD ∧
    select_mode^[4] MODE_POINT_CLOUD ≠ MODE_POINT_CLOUD ∧
    select_mode_v1^[4] 0 = 0 ∧
    select_mode_v1^[1] 0 ≠ 0 ∧
    select_mode_v1^[2] 0 ≠ 0 ∧
    select_mode_v1^[3] 0 ≠ 0 := by
  decide

/-- C10: the render mode field stays in the defined range zero to
MODE_SOLID_SHADED: the initial mode is in range and select_mode maps
the range into itself; likewise for the four modes of the older
renderer. -/
theorem render_mode_in_range :
    (0 ≤ initial_render_mode ∧ initial_render_mode ≤ MODE_SOLID_SHADED) ∧
    (∀ m : ℤ, 0 ≤ m → m ≤ MODE_SOLID_SHADED →
      0 ≤ select_mode m ∧ select_mode m ≤ MODE_SOLID_SHADED) ∧
    (∀ m : ℤ, 0 ≤ m → m ≤ MODE_SOLID →
      0 ≤ select_mode_v1 m ∧ select_mode_v1 m ≤ MODE_SOLID) := by
  refine ⟨by decide, ?_, ?_⟩
  · intro m h0 h1
    simp only [select_mode, MODE_SOLID_SHADED] at h1 ⊢
    split_ifs <;> omega
  · intro m h0 h1
    simp only [select_mode_v1, MODE_SOLID] at h1 ⊢
    split_ifs <;> omega

/-- C10 witness: select_mode keeps concrete in-range modes in range. -/
theorem render_mode_in_range_witness :
    ((0 : ℤ) ≤ 3 ∧ (3 : ℤ) ≤ MODE_SOLID_SHADED) ∧
    (0 ≤ select_mode 3 ∧ select_mode 3 ≤ MODE_SOLID_SHADED) ∧
    ((0 : ℤ) ≤ 2 ∧ (2 : ℤ) ≤ MODE_SOLID) ∧
    (0 ≤ select_mode_v1 2 ∧ select_mode_v1 2 ≤ MODE_SOLID) :=
  ⟨⟨by decide, by decide⟩,
   render_mode_in_range.2.1 3 (by decide) (by decide),
   ⟨by decide, by decide⟩,
   render_mode_in_range.2.2 2 (by decide) (by decide)⟩

/-- C9: pressing the rotate-left control sets the angular Y velocity to
the fixed nonzero value 45, and a simulation update performed while
neither horizontal rotate control is held sets the angular Y velocity
to exactly 0 whatever its prior value. -/
theorem angular_velocity_reset :
    (∀ s : SimState, (button_left s).ang_y = 45) ∧ (45 : ℚ) ≠ 0 ∧
    (∀ (s : SimState) (dt : ℚ), s.joy_left = false → s.joy_right = false →
      (renderer_update dt s).ang_y = 0) := by
  refine ⟨fun s => rfl, by norm_num, ?_⟩
  intro s dt hl hr
  simp [renderer_update, mesh_update, hl, hr]
  split <;> rfl

/-- C9 witness: a concrete state with nonzero prior angular velocity
and no horizontal control held. -/
theorem angular_velocity_reset_witness :
    (button_left ⟨1, 2, 3, 4, 5, 6, false, false, true, false⟩).ang_y = 45 ∧
    (⟨1, 2, 3, 4, 5, 6, false, false, true, false⟩ : SimState).joy_left = false ∧
    (⟨1, 2, 3, 4, 5, 6, false, false, true, false⟩ : SimState).joy_right = false ∧
    (renderer_update 7 ⟨1, 2, 3, 4, 5, 6, false, false, true, false⟩).ang_y = 0 :=
  ⟨angular_velocity_reset.1 _, rfl, rfl, angular_velocity_reset.2.2 _ 7 rfl rfl⟩

/-- C5: converting a projected NDC vertex to screen coordinates yields
the truncation of (ndc.x + 1) * 1/2 * width and of
(1 - (ndc.y + 1) * 1/2) * height. -/
theorem ndc_to_screen_conversion :
    ∀ (w h : ℚ) (v : Vec3),
      ndc_to_screen w h v =
        (truncQ ((v.x + 1) * (1 / 2) * w), truncQ ((1 - (v.y + 1) * (1 / 2)) * h)) := by
  intro w h v
  norm_num [ndc_to_screen]

/-- C4: the perspective projection matrix has y scale 1 over the
tangent of half the field of view, x scale equal to the y scale divided
by the aspect ratio, the entry -1 at row 3 column 2 and 0 at row 3
column 3 (zero-indexed, column-major flat layout), and near and far
appear only in the z-scale entry (2,2) and z-offset entry (2,3). -/
theorem perspective_matrix_entries :
    ∀ s a near far : ℚ,
      mat_get (perspective_matrix s a near far) 1 1 = 1 / s ∧
      mat_get (perspective_matrix s a near far) 0 0 = (1 / s) / a ∧
      mat_get (perspective_matrix s a near far) 3 2 = -1 ∧
      mat_get (perspective_matrix s a near far) 3 3 = 0 ∧
      (∀ (near2 far2 : ℚ) (r c : ℕ), r < 4 → ¬(r = 2 ∧ (c = 2 ∨ c = 3)) →
        mat_get (perspective_matrix s a near far) r c =
        mat_get (perspective_matrix s a near2 far2) r c) := by
  intro s a near far
  refine ⟨rfl, ?_, rfl, rfl, ?_⟩
  · show (1 : ℚ) / (s * a) = 1 / s / a
    rw [div_div]
  · intro near2 far2 r c hr hne
    rcases Nat.lt_or_ge c 4 with hc | hc
    · interval_cases r <;> interval_cases c <;>
        first
          | rfl
          | exact absurd (by omega) hne
    · unfold mat_get
      rw [List.getD_eq_getElem?_getD, List.getD_eq_getElem?_getD,
        List.getElem?_eq_none (by show 16 ≤ _; omega),
        List.getElem?_eq_none (by show 16 ≤ _; omega)]

/-- C4 witness: concrete field of view, aspect and clip planes; the
near and far values move only the z entries. -/
theorem perspective_matrix_entries_witness :
    mat_get (perspective_matrix 2 3 1 10) 1 1 = 1 / 2 ∧
    (1 : ℕ) < 4 ∧ ¬((1 : ℕ) = 2 ∧ ((1 : ℕ) = 2 ∨ (1 : ℕ) = 3)) ∧
    mat_get (perspective_matrix 2 3 1 10) 1 1 =
      mat_get (perspective_matrix 2 3 5 20) 1 1 :=
  ⟨(perspective_matrix_entries 2 3 1 10).1, by decide, by decide,
   (perspective_matrix_entries 2 3 1 10).2.2.2.2 5 20 1 1 (by decide) (by decide)⟩

/-- C2: the painter-algorithm sort orders the surviving faces by
ascending camera-space centroid depth (a permutation of its input,
sorted so that more negative depths come first); in particular faces
with depths -10, -5, -20 come out in the order -20, -10, -5. -/
theorem depth_sort_back_to_front :
    (∀ fs : List (Face × ℚ),
      (sort_faces fs).Sorted depth_le ∧ List.Perm (sort_faces fs) fs) ∧
    (sort_faces [(⟨0, 0, 0, 0, 0⟩, -10), (⟨1, 1, 1, 1, 1⟩, -5), (⟨2, 2, 2, 2, 2⟩, -20)]).map
        Prod.snd = [-20, -10, -5] := by
  constructor
  · intro fs
    exact ⟨List.sorted_insertionSort depth_le fs, List.perm_insertionSort depth_le fs⟩
  · decide

theorem face_visible_false_iff (vs : List Vec3) :
    face_visible vs = false ↔
      ∀ v ∈ vs, ¬(-1 < v.x ∧ v.x < 1 ∧ -1 < v.y ∧ v.y < 1) := by
  rw [← Bool.not_eq_true]
  unfold face_visible vert_visible
  simp [List.any_eq_true, and_assoc]

/-- C1 counterexample: the claim pairs the camera-to-centroid direction
with the skip-if-negative test, but the source dots the normal against
campos minus centre (the centroid-to-camera direction).  In context
R_cx1 the mode requests back-face culling and the dot of the face
normal with the camera-to-centroid direction is negative, yet the face
is kept: it lands in the face list and its vertex in the cache. -/
theorem back_face_culling_cx :
    culling_enabled R_cx1.mode = true ∧
    v_dot (norm_at R_cx1 0)
        (R_cx1.nrm (v_subtract (face_centre R_cx1 ⟨0, 0, 0, 0, 0⟩) R_cx1.campos)) < 0 ∧
    (cull_pass R_cx1).1 ≠ [] ∧
    ((cull_pass R_cx1).2.getD 0 none).isSome = true := by
  refine ⟨rfl, ?_, ?_, ?_⟩
  · norm_num [R_cx1, norm_at, face_centre, vert_at, v_average3, v_subtract, v_dot, vzero]
  · norm_num [cull_pass, cull_step, cache_add, face_keep, face_dot, face_camera,
      face_centre, vert_at, norm_at, v_dot, v_subtract, v_average3, v_multiply, mat_get,
      face_depth, culling_enabled, project_vert, R_cx1, identity_matrix, vzero,
      MODE_WIREFRAME_BACK_FACE_CULLING, List.foldl, List.replicate]
  · norm_num [cull_pass, cull_step, cache_add, face_keep, face_dot, face_camera,
      face_centre, vert_at, norm_at, v_dot, v_subtract, v_average3, v_multiply, mat_get,
      face_depth, culling_enabled, project_vert, R_cx1, identity_matrix, vzero,
      MODE_WIREFRAME_BACK_FACE_CULLING, List.foldl, List.replicate]

/-- C1 (amended): the pipeline computes each face centroid as the
average of its three world vertices, dots the face world normal against
the normalised centroid-to-camera direction (campos minus centre), and,
when the active mode requests back-face culling, skips exactly the
faces with dot < 0: the face list is precisely the kept faces paired
with their view-space depths, and the projected-vertex cache holds
entries only for vertex indices of kept faces. -/
theorem back_face_culling (R : RenderCtx) :
    (∀ f : Face, face_keep R f = false ↔
        (face_dot R f < 0 ∧ culling_enabled R.mode = true)) ∧
    (cull_pass R).1 =
      (R.faces.filter (face_keep R)).map (fun f => (f, face_depth R f)) ∧
    (∀ i : ℕ, ((cull_pass R).2.getD i none).isSome = true →
      ∃ f, f ∈ R.faces ∧ face_keep R f = true ∧ (i = f.i0 ∨ i = f.i1 ∨ i = f.i2)) := by
  refine ⟨?_, cull_pass_fst R, ?_⟩
  · intro f
    unfold face_keep
    cases h1 : decide (face_dot R f < 0) <;> cases h2 : culling_enabled R.mode <;>
      simp_all
  · intro i hi
    unfold cull_pass at hi
    rcases cull_fold_cache_isSome R R.faces ([], List.replicate R.verts.length none) i hi
      with h | h
    · rw [getD_replicate_none] at h
      simp at h
    · exact h

/-- C1 witness: in R_w1 the culled face satisfies the skip condition,
the face list is the filtered face list, and cache entry 0 stems from a
kept face. -/
theorem back_face_culling_witness :
    (face_keep R_w1 ⟨0, 0, 0, 1, 0⟩ = false ↔
      (face_dot R_w1 ⟨0, 0, 0, 1, 0⟩ < 0 ∧ culling_enabled R_w1.mode = true)) ∧
    (cull_pass R_w1).1 =
      (R_w1.faces.filter (face_keep R_w1)).map (fun f => (f, face_depth R_w1 f)) ∧
    (∃ f, f ∈ R_w1.faces ∧ face_keep R_w1 f = true ∧
      (0 = f.i0 ∨ 0 = f.i1 ∨ 0 = f.i2)) :=
  ⟨(back_face_culling R_w1).1 ⟨0, 0, 0, 1, 0⟩,
   (back_face_culling R_w1).2.1,
   (back_face_culling R_w1).2.2 0 (by
    norm_num [cull_pass, cull_step, cache_add, face_keep, face_dot, face_camera,
      face_centre, vert_at, norm_at, v_dot, v_subtract, v_average3, v_multiply, mat_get,
      face_depth, culling_enabled, project_vert, R_w1, identity_matrix, vzero,
      MODE_WIREFRAME_BACK_FACE_CULLING, List.foldl, List.replicate])⟩

/-- C3 counterexample: in R_cx3 every projected vertex of the single
face sits at (1, 0), which is not outside the closed square on either
axis, so the claim as stated submits the face; the pipeline submits
nothing because the source viewport tests are strict. -/
theorem viewport_test_cx :
    (¬ ∀ v ∈ face_ndc (cull_pass R_cx3).2 ⟨0, 0, 0, 0, 0⟩,
        (v.x < -1 ∨ 1 < v.x ∨ v.y < -1 ∨ 1 < v.y)) ∧
    render_scene R_cx3 packT whiteT = [] := by
  constructor
  · norm_num [cull_pass, cull_step, cache_add, face_keep, face_dot, face_camera,
      face_centre, vert_at, norm_at, v_dot, v_subtract, v_average3, v_multiply, mat_get,
      face_depth, culling_enabled, project_vert, R_cx3, identity_matrix, vzero,
      MODE_WIREFRAME_BACK_FACE_CULLING, List.foldl, List.replicate, face_ndc, cache_ndc]
  · norm_num [render_scene, sort_faces, draw_face, face_visible, vert_visible,
      face_colour, face_ndc, cache_ndc, ndc_to_screen, truncQ,
      cull_pass, cull_step, cache_add, face_keep, face_dot, face_camera,
      face_centre, vert_at, norm_at, v_dot, v_subtract, v_average3, v_multiply, mat_get,
      face_depth, culling_enabled, project_vert, R_cx3, identity_matrix, vzero,
      MODE_POINT_CLOUD, MODE_WIREFRAME_FULL, MODE_WIREFRAME_BACK_FACE_CULLING,
      MODE_SOLID, MODE_SOLID_SHADED, List.foldl, List.replicate, packT, whiteT]

/-- C3 (amended): for any nonnegative render mode, the render loop
skips a face exactly when all three of its projected NDC vertices fall
outside the open square (-1,1) x (-1,1), boundary points counting as
outside (the source tests are strict); if at least one vertex lies
strictly inside, the whole face is submitted. -/
theorem viewport_test_open (C : Type) (R : RenderCtx) (pack : ℤ → ℤ → ℤ → C)
    (white : C) (c : Cache) (fd : Face × ℚ) (hmode : 0 ≤ R.mode) :
    draw_face R pack white c fd = none ↔
      ∀ v ∈ face_ndc c fd.1, ¬(-1 < v.x ∧ v.x < 1 ∧ -1 < v.y ∧ v.y < 1) := by
  rw [← face_visible_false_iff]
  unfold draw_face
  by_cases hv : face_visible (face_ndc c fd.1) = true
  · constructor
    · intro h
      exfalso
      rw [if_pos hv] at h
      unfold MODE_POINT_CLOUD MODE_WIREFRAME_FULL MODE_WIREFRAME_BACK_FACE_CULLING
        MODE_SOLID at h
      split_ifs at h with h0 h1 h2
      omega
    · intro h
      rw [hv] at h
      cases h
  · rw [if_neg hv]
    simp only [Bool.not_eq_true] at hv
    simp [hv]

/-- C3 witness: a face with one projected vertex at the NDC origin and
two at (5, 5) is not skipped. -/
theorem viewport_test_open_witness :
    (0 : ℤ) ≤ R_w3.mode ∧
    ((draw_face R_w3 packT whiteT [some ⟨0, 0, 0⟩, some ⟨5, 5, 0⟩]
        (⟨0, 1, 1, 0, 0⟩, 0) = none) ↔
      ∀ v ∈ face_ndc [some ⟨0, 0, 0⟩, some ⟨5, 5, 0⟩] ⟨0, 1, 1, 0, 0⟩,
        ¬(-1 < v.x ∧ v.x < 1 ∧ -1 < v.y ∧ v.y < 1)) ∧
    draw_face R_w3 packT whiteT [some ⟨0, 0, 0⟩, some ⟨5, 5, 0⟩]
        (⟨0, 1, 1, 0, 0⟩, 0) ≠ none :=
  ⟨by decide,
   viewport_test_open (ℤ × ℤ × ℤ) R_w3 packT whiteT
     [some ⟨0, 0, 0⟩, some ⟨5, 5, 0⟩] (⟨0, 1, 1, 0, 0⟩, 0) (by decide),
   by
    norm_num [draw_face, face_visible, vert_visible, face_ndc, cache_ndc, face_colour,
      ndc_to_screen, truncQ, R_w3, packT, whiteT, MODE_POINT_CLOUD, MODE_WIREFRAME_FULL,
      MODE_WIREFRAME_BACK_FACE_CULLING, MODE_SOLID, MODE_SOLID_SHADED, vzero]
    intro hcon
    exact Option.noConfusion hcon⟩

/-- C6: in solid shaded mode every face that passes the viewport test
is emitted as a filled polygon whose colour is the face palette colour
with each channel scaled by minus the dot of the face normal with the
lighting direction, truncated to an integer, clamped below at the floor
8, and packed by the display colour encoder. -/
theorem solid_shaded_fill (C : Type) (R : RenderCtx) (pack : ℤ → ℤ → ℤ → C)
    (white : C) (c : Cache) (fd : Face × ℚ)
    (hmode : R.mode = MODE_SOLID_SHADED)
    (hvis : face_visible (face_ndc c fd.1) = true) :
    draw_face R pack white c fd =
      some (DrawCall.fill ((face_ndc c fd.1).map (ndc_to_screen R.width R.height))
        (pack
          (max (truncQ (((R.colours.getD fd.1.ci (0, 0, 0)).1 : ℚ) *
            -(v_dot (norm_at R fd.1.ni) R.v_light))) 8)
          (max (truncQ (((R.colours.getD fd.1.ci (0, 0, 0)).2.1 : ℚ) *
            -(v_dot (norm_at R fd.1.ni) R.v_light))) 8)
          (max (truncQ (((R.colours.getD fd.1.ci (0, 0, 0)).2.2 : ℚ) *
            -(v_dot (norm_at R fd.1.ni) R.v_light))) 8))) := by
  have hvis2 := hvis
  unfold draw_face face_colour v_scale
  rw [hmode]
  simp only [hvis2, if_true, MODE_POINT_CLOUD, MODE_WIREFRAME_FULL,
    MODE_WIREFRAME_BACK_FACE_CULLING, MODE_SOLID, MODE_SOLID_SHADED]
  norm_num

/-- C6 witness: a full-intensity lit face in solid shaded mode comes
out as a filled polygon in its palette colour. -/
theorem solid_shaded_fill_witness :
    R_w6.mode = MODE_SOLID_SHADED ∧
    face_visible (face_ndc [some vzero] ⟨0, 0, 0, 0, 0⟩) = true ∧
    draw_face R_w6 packT whiteT [some vzero] (⟨0, 0, 0, 0, 0⟩, 0) =
      some (DrawCall.fill [(80, 64), (80, 64), (80, 64)] (200, 100, 50)) := by
  refine ⟨rfl, by decide, ?_⟩
  rw [solid_shaded_fill (ℤ × ℤ × ℤ) R_w6 packT whiteT [some vzero]
    (⟨0, 0, 0, 0, 0⟩, 0) rfl (by decide)]
  norm_num [face_ndc, cache_ndc, ndc_to_screen, truncQ, R_w6, packT, norm_at, v_dot,
    vzero]

/-- C7: the per-frame projected-vertex memoization is transparent:
every cache entry equals the re-projection of its vertex through the
view and projection matrices, and for a mesh with in-range indices the
pipeline output equals that of the cache-free pipeline that re-projects
every vertex of every face. -/
theorem projected_vertex_cache_transparent (C : Type) (R : RenderCtx)
    (pack : ℤ → ℤ → ℤ → C) (white : C) (hv : valid_mesh R) :
    (∀ i v, (cull_pass R).2.getD i none = some v → v = project_vert R i) ∧
    render_scene R pack white = render_scene_direct R pack white := by
  refine ⟨cull_pass_cache_ok R, ?_⟩
  simp only [render_scene, render_scene_direct]
  rw [← cull_pass_fst R]
  apply List.filterMap_congr
  intro fd hfd
  have hmem : fd ∈ (cull_pass R).1 := by
    unfold sort_faces at hfd
    exact (List.perm_insertionSort depth_le ((cull_pass R).1)).mem_iff.mp hfd
  exact draw_face_eq_direct R pack white (cull_pass_cache_ok R)
    (cull_pass_covered R hv fd hmem)

/-- C7 witness: a concrete mesh of two faces sharing two vertices
renders identically with and without the cache. -/
theorem projected_vertex_cache_transparent_witness :
    valid_mesh R_w7 ∧
    render_scene R_w7 packT whiteT = render_scene_direct R_w7 packT whiteT :=
  ⟨by unfold valid_mesh; decide,
   (projected_vertex_cache_transparent (ℤ × ℤ × ℤ) R_w7 packT whiteT
     (by unfold valid_mesh; decide)).2⟩
